import Mathlib

/-!
Shallow embedding of the LuxWS protocol core (`luxws` transport and response
handler, `luxwsclient` envelope codec, trees and client operations) together
with proofs about its behaviour.

Modelling conventions:
* Go errors are the inductive `GoErr`; a Go `error` value that may be `nil`
  is `Option GoErr` (`none` = nil).  `errors.Is(err, ErrIgnore)` is modelled
  as equality with `GoErr.errIgnore` (the code never wraps `ErrIgnore`).
* Frame payloads (`[]byte`) are `Payload := String`.
* A response handler callback (a Go closure over caller-owned storage) is a
  state-passing function `σ → Payload → σ × Option GoErr`.
* The concurrent transport is modelled sequentially: one `roundTrip` call is
  a function of the transport state, the write outcome, the list of inbound
  text frames delivered to the registered handler while the call is blocked,
  and the select branch (`WaitEvent`) that ends the blocking select.
-/

abbrev Payload := String

/-- Errors of the `luxws`/`luxwsclient` packages.  `errClosed`, `errNotRunning`,
`errBusy` and `errIgnore` are the package-level sentinel errors; `other`
stands for any further error value (I/O errors, decode errors, context
errors), distinguished by a tag. -/
inductive GoErr where
  | errClosed
  | errNotRunning
  | errBusy
  | errIgnore
  | other (tag : Nat)
deriving DecidableEq, Repr

/-- Latch state of `responseHandler` (file `part_006`): `done` models the
`done` channel being closed, `err` the stored `err` field. -/
structure RespHandler where
  done : Bool
  err : Option GoErr
deriving DecidableEq, Repr

/-- `newResponseHandler`: open latch, no error. -/
def newResponseHandler : RespHandler :=
  { done := false, err := none }

/-- `responseHandler.Handle` (part_006 lines 86–104).  The callback `f` is the
Go closure `fn`; its captured mutable storage is threaded as `σ`.  If the
latch has fired the call is a no-op and `fn` is not invoked.  Otherwise `fn`
runs; a `nil` result latches success, a result equal to `ErrIgnore` leaves the
latch open, and any other error latches with that error. -/
def RespHandler.handleMsg {σ : Type} (f : σ → Payload → σ × Option GoErr)
    (sh : σ × RespHandler) (p : Payload) : σ × RespHandler :=
  if sh.2.done then sh
  else
    let (s', r) := f sh.1 p
    match r with
    | none => (s', { done := true, err := none })
    | some e =>
        if e = GoErr.errIgnore then (s', sh.2)
        else (s', { done := true, err := some e })

/-- A sequence of `Handle` calls, one per delivered frame. -/
def handleAll {σ : Type} (f : σ → Payload → σ × Option GoErr)
    (sh : σ × RespHandler) (ps : List Payload) : σ × RespHandler :=
  ps.foldl (RespHandler.handleMsg f) sh

/-- Specification-side description of the one-shot latch: run the decision
function over the frames; the first non-ignore decision is committed and all
later frames are dropped.  Written from the spec's words for comparison with
`handleAll`. -/
def oneShotLatchSpec {σ : Type} (f : σ → Payload → σ × Option GoErr)
    (s : σ) : List Payload → σ × RespHandler
  | [] => (s, newResponseHandler)
  | p :: ps =>
      let (s', r) := f s p
      if r = some GoErr.errIgnore then oneShotLatchSpec f s' ps
      else (s', { done := true, err := r })

/-- Shared mutable state of `transport` (part_006).  `closed` models the
underlying websocket connection having been closed, `recvDone` the
`recvDone` channel being closed (receiver goroutine terminated), `recvErr`
the recorded terminal error, and `handlerSet` whether the `handler` field
is non-nil (a correlator is registered). -/
structure TransportState where
  closed : Bool
  recvDone : Bool
  recvErr : Option GoErr
  handlerSet : Bool
deriving DecidableEq, Repr

/-- State of a freshly constructed transport (`newTransport`). -/
def TransportState.new : TransportState :=
  { closed := false, recvDone := false, recvErr := none, handlerSet := false }

/-- `transport.receiver` terminating (part_006 lines 260–272): the receiver
records its loop's error — or `ErrNotRunning` when the loop returned `nil` —
as the terminal error and closes `recvDone`. -/
def receiverFinish (readErr : Option GoErr) (t : TransportState) : TransportState :=
  { t with recvDone := true, recvErr := some (readErr.getD GoErr.errNotRunning) }

/-- `transport.Close` (part_006 lines 240–258).  Closing an already-closed
websocket returns the closed error and changes nothing.  Otherwise the
underlying close succeeds, the pending read fails which terminates the
receiver, `Close` waits for that termination and then stores `ErrClosed` as
the terminal error (unconditionally overwriting `recvErr`). -/
def closeTransport (t : TransportState) : Option GoErr × TransportState :=
  if t.closed then (some GoErr.errClosed, t)
  else (none,
    { t with closed := true, recvDone := true, recvErr := some GoErr.errClosed })

/-- The select branch that ends `roundTrip`'s blocking select (part_006
lines 346–356): the handler's `Done` channel fired, the receiver terminated
with terminal error `e`, or the context finished with error `e`. -/
inductive WaitEvent where
  | handlerDone
  | recvDied (e : GoErr)
  | ctxDone (e : GoErr)
deriving DecidableEq, Repr

/-- Environment of one `roundTrip` call: the outcome of `writeMessage`
(`none` = write succeeded), the inbound text frames the receiver delivers to
the registered handler while the call blocks, and the select branch that
ends the wait. -/
structure RTInput where
  writeErr : Option GoErr
  frames : List Payload
  ev : WaitEvent
deriving Repr

/-- First, locked, phase of `transport.roundTrip` (part_006 lines 322–333):
if the receiver has terminated the call takes the terminal error; otherwise
the handler slot is taken if free, and `ErrBusy` results if it is occupied. -/
def roundTripAcquire (t : TransportState) : Option GoErr × TransportState :=
  if t.recvDone then (t.recvErr, t)
  else if t.handlerSet then (some GoErr.errBusy, t)
  else (none, { t with handlerSet := true })

/-- Blocking phase of `transport.roundTrip` (part_006 lines 346–358): the
delivered frames are fed to the fresh handler by the receiver; the select
then returns the handler's error, the receiver's terminal error, or the
context's error, and the handler slot is cleared in every branch. -/
def rtWait {σ : Type} (f : σ → Payload → σ × Option GoErr) (s : σ)
    (inp : RTInput) (t : TransportState) : Option GoErr × TransportState × σ :=
  let sh := handleAll f (s, newResponseHandler) inp.frames
  match inp.ev with
  | WaitEvent.handlerDone => (sh.2.err, { t with handlerSet := false }, sh.1)
  | WaitEvent.recvDied e =>
      (some e,
        { t with recvDone := true, recvErr := some e, handlerSet := false }, sh.1)
  | WaitEvent.ctxDone e => (some e, { t with handlerSet := false }, sh.1)

/-- `transport.roundTrip` / `transport.RoundTrip` (part_006 lines 319–361,
368–370): acquire the handler slot, write the request frame (unregistering
on write failure), then block.  The request string itself never influences
the control flow and is abstracted into `inp.writeErr`. -/
def roundTrip {σ : Type} (f : σ → Payload → σ × Option GoErr) (s : σ)
    (inp : RTInput) (t : TransportState) : Option GoErr × TransportState × σ :=
  match roundTripAcquire t with
  | (some e, t1) => (some e, t1, s)
  | (none, t1) =>
      match inp.writeErr with
      | some e => (some e, { t1 with handlerSet := false }, s)
      | none => rtWait f s inp t1

/-- An `encoding/xml` element name (`xml.Name`): namespace and local part. -/
structure XmlName where
  space : String
  localPart : String
deriving DecidableEq, Repr

/-- Result of `xmlUnmarshal` succeeding on a payload: the decoded document of
the target tree shape, together with the local part of its root tag (the
`XMLName` field of the decoded value). -/
structure Decoded (α : Type) where
  rootLocal : String
  value : α
deriving DecidableEq, Repr

/-- `strings.ToLower` as used on the decoded root tag.  The tags compared in
this package are ASCII, for which Go's `strings.ToLower` and the per-rune
ASCII lowering below agree. -/
def toLowerStr (s : String) : String :=
  String.mk (s.data.map Char.toLower)

/-- `responseUnmarshal` (src/luxwsclient/client.go lines 21–44).  The XML
decoder (`xmlUnmarshal` with charset support) is abstracted as `decode`; `v`
is the current contents of the caller's output location and the first
component of the result is its new contents.  A decode failure is returned
verbatim and leaves the output untouched; a decoded root whose lowercased
local name equals `wantLocalName` commits the decoded value and succeeds;
any other root leaves the output untouched and yields `ErrIgnore`.  (The
`"value must be pointer"` guard is omitted: every call in the package passes
a pointer.) -/
def responseUnmarshal {α : Type} (decode : Payload → Except GoErr (Decoded α))
    (data : Payload) (v : α) (wantLocalName : String) : α × Option GoErr :=
  match decode data with
  | Except.error e => (v, some e)
  | Except.ok doc =>
      if toLowerStr doc.rootLocal = wantLocalName then (doc.value, none)
      else (v, some GoErr.errIgnore)

/-- `NavItem` (src/luxwsclient/navigation.go): id attribute, name, children. -/
inductive NavItem where
  | mk (id : String) (name : String) (items : List NavItem)

def NavItem.id : NavItem → String
  | NavItem.mk i _ _ => i

def NavItem.name : NavItem → String
  | NavItem.mk _ n _ => n

def NavItem.items : NavItem → List NavItem
  | NavItem.mk _ _ its => its

/-- `NavRoot` (src/luxwsclient/navigation.go). -/
structure NavRoot where
  xmlName : XmlName
  id : String
  items : List NavItem

/-- The zero value of `NavRoot` (`var result NavRoot`). -/
def NavRoot.zero : NavRoot :=
  { xmlName := { space := "", localPart := "" }, id := "", items := [] }

/-- `findNavItemByName` (src/luxwsclient/navigation.go lines 7–19): for each
item in order, first test the item itself, then search its subtree, then
move on. -/
def findNavItemByName (name : String) : List NavItem → Option NavItem
  | [] => none
  | NavItem.mk i n its :: rest =>
      if n = name then some (NavItem.mk i n its)
      else
        match findNavItemByName name its with
        | some found => some found
        | none => findNavItemByName name rest

/-- `NavRoot.FindByName`. -/
def NavRoot.FindByName (r : NavRoot) (name : String) : Option NavItem :=
  findNavItemByName name r.items

/-- `ContentItemOption` (src/luxwsclient/content.go). -/
structure ContentItemOption where
  value : String
  name : String
deriving DecidableEq, Repr

/-- `ContentItem` (src/luxwsclient/content.go lines 34–48): id attribute,
name, seven independently optional scalar fields (`*string` modelled as
`Option String`), column and header lists, options, children. -/
inductive ContentItem where
  | mk (id : String) (name : String)
      (min : Option String) (max : Option String) (step : Option String)
      (unit : Option String) (div : Option String) (raw : Option String)
      (value : Option String)
      (columns : List String) (headers : List String)
      (options : List ContentItemOption) (items : List ContentItem)

def ContentItem.name : ContentItem → String
  | ContentItem.mk _ n _ _ _ _ _ _ _ _ _ _ _ => n

def ContentItem.min : ContentItem → Option String
  | ContentItem.mk _ _ v _ _ _ _ _ _ _ _ _ _ => v

def ContentItem.max : ContentItem → Option String
  | ContentItem.mk _ _ _ v _ _ _ _ _ _ _ _ _ => v

def ContentItem.step : ContentItem → Option String
  | ContentItem.mk _ _ _ _ v _ _ _ _ _ _ _ _ => v

def ContentItem.unit : ContentItem → Option String
  | ContentItem.mk _ _ _ _ _ v _ _ _ _ _ _ _ => v

def ContentItem.div : ContentItem → Option String
  | ContentItem.mk _ _ _ _ _ _ v _ _ _ _ _ _ => v

def ContentItem.raw : ContentItem → Option String
  | ContentItem.mk _ _ _ _ _ _ _ v _ _ _ _ _ => v

def ContentItem.value : ContentItem → Option String
  | ContentItem.mk _ _ _ _ _ _ _ _ v _ _ _ _ => v

def ContentItem.items : ContentItem → List ContentItem
  | ContentItem.mk _ _ _ _ _ _ _ _ _ _ _ _ its => its

/-- `ContentRoot` (src/luxwsclient/content.go). -/
structure ContentRoot where
  xmlName : XmlName
  items : List ContentItem

/-- The zero value of `ContentRoot` (`var result ContentRoot`). -/
def ContentRoot.zero : ContentRoot :=
  { xmlName := { space := "", localPart := "" }, items := [] }

/-- `findContentItemByName` (src/luxwsclient/content.go lines 7–19). -/
def findContentItemByName (name : String) : List ContentItem → Option ContentItem
  | [] => none
  | ContentItem.mk i n mn mx st un dv rw vl cs hs os its :: rest =>
      if n = name then some (ContentItem.mk i n mn mx st un dv rw vl cs hs os its)
      else
        match findContentItemByName name its with
        | some found => some found
        | none => findContentItemByName name rest

/-- `ContentRoot.FindByName`. -/
def ContentRoot.FindByName (r : ContentRoot) (name : String) : Option ContentItem :=
  findContentItemByName name r.items

/-- Depth-first pre-order listing of a navigation forest: each item before
its subtree, children and siblings in original order.  Reference order for
the `FindByName` traversal. -/
def navPreorder : List NavItem → List NavItem
  | [] => []
  | NavItem.mk i n its :: rest =>
      NavItem.mk i n its :: (navPreorder its ++ navPreorder rest)

/-- Depth-first pre-order listing of a content forest. -/
def contentPreorder : List ContentItem → List ContentItem
  | [] => []
  | ContentItem.mk i n mn mx st un dv rw vl cs hs os its :: rest =>
      ContentItem.mk i n mn mx st un dv rw vl cs hs os its ::
        (contentPreorder its ++ contentPreorder rest)

/-- `Client.Login` (src/luxwsclient/client.go lines 83–89, part_007 lines
104–110): start from the zero `NavRoot`, run a round trip whose handler is
`responseUnmarshal` expecting root `navigation`, and return the storage
together with the round trip's error (`&result` is always returned, so the
tree value is present on every path).  The command string `"LOGIN;"+password`
does not influence the modelled control flow. -/
def clientLogin (decode : Payload → Except GoErr (Decoded NavRoot))
    (inp : RTInput) (t : TransportState) :
    NavRoot × Option GoErr × TransportState :=
  let r := roundTrip
    (fun s p => responseUnmarshal decode p s "navigation") NavRoot.zero inp t
  (r.2.2, r.1, r.2.1)

/-- `Client.Get` (part_007 lines 113–119): as `clientLogin`, expecting root
`content` and starting from the zero `ContentRoot`. -/
def clientGet (decode : Payload → Except GoErr (Decoded ContentRoot))
    (inp : RTInput) (t : TransportState) :
    ContentRoot × Option GoErr × TransportState :=
  let r := roundTrip
    (fun s p => responseUnmarshal decode p s "content") ContentRoot.zero inp t
  (r.2.2, r.1, r.2.1)

/-- An XML element as seen by `encoding/xml`: tag name (local part),
attributes, character data, child elements. -/
inductive XElem where
  | mk (name : String) (attrs : List (String × String)) (text : String)
      (children : List XElem)

def XElem.name : XElem → String
  | XElem.mk n _ _ _ => n

def XElem.attrs : XElem → List (String × String)
  | XElem.mk _ a _ _ => a

def XElem.text : XElem → String
  | XElem.mk _ _ t _ => t

def XElem.children : XElem → List XElem
  | XElem.mk _ _ _ cs => cs

/-- First child element with the given tag, if any. -/
def childNamed (tag : String) (e : XElem) : Option XElem :=
  e.children.find? (fun c => c.name == tag)

/-- Value of the attribute with the given name, defaulting to the zero
string when absent (`encoding/xml` mapping for a plain `string` attr
field). -/
def attrValue (key : String) (e : XElem) : String :=
  ((e.attrs.find? (fun a => a.1 == key)).map Prod.snd).getD ""

/-- `encoding/xml` mapping of an optional `*string` element field: the
pointer is set — to the child's character data — exactly when a child with
the tag is present, and stays `nil` otherwise. -/
def optStringField (tag : String) (e : XElem) : Option String :=
  (childNamed tag e).map XElem.text

/-- `encoding/xml` mapping of a required `string` element field: the child's
character data, or the zero string when the child is absent. -/
def stringField (tag : String) (e : XElem) : String :=
  (optStringField tag e).getD ""

/-- All children with the given tag, in document order. -/
def childrenNamed (tag : String) : List XElem → List XElem
  | [] => []
  | c :: rest =>
      if c.name == tag then c :: childrenNamed tag rest
      else childrenNamed tag rest

/-- `encoding/xml` decoding of one `<option>` child into `ContentItemOption`
(value attribute plus character data). -/
def decodeOption (e : XElem) : ContentItemOption :=
  { value := attrValue "value" e, name := e.text }

mutual

/-- Decoding of one element into `ContentItem` following the struct tags of
`ContentItem` (src/luxwsclient/content.go lines 34–48) under `encoding/xml`
semantics: the `id` attribute, the `name` child's text, the seven optional
`*string` children, the `columns`/`headers` text lists, the `option`
children, and the `item` children recursively. -/
def decodeContentItem : XElem → ContentItem
  | XElem.mk n a t cs =>
      ContentItem.mk
        (attrValue "id" (XElem.mk n a t cs))
        (stringField "name" (XElem.mk n a t cs))
        (optStringField "min" (XElem.mk n a t cs))
        (optStringField "max" (XElem.mk n a t cs))
        (optStringField "step" (XElem.mk n a t cs))
        (optStringField "unit" (XElem.mk n a t cs))
        (optStringField "div" (XElem.mk n a t cs))
        (optStringField "raw" (XElem.mk n a t cs))
        (optStringField "value" (XElem.mk n a t cs))
        ((childrenNamed "columns" cs).map XElem.text)
        ((childrenNamed "headers" cs).map XElem.text)
        ((childrenNamed "option" cs).map decodeOption)
        (decodeContentItems cs)

/-- Decoding of the `item` children of an element list, in order. -/
def decodeContentItems : List XElem → List ContentItem
  | [] => []
  | c :: rest =>
      if c.name == "item" then decodeContentItem c :: decodeContentItems rest
      else decodeContentItems rest

end

theorem handleAll_cons {σ : Type} (f : σ → Payload → σ × Option GoErr)
    (sh : σ × RespHandler) (p : Payload) (ps : List Payload) :
    handleAll f sh (p :: ps) = handleAll f (RespHandler.handleMsg f sh p) ps := rfl

theorem handleMsg_of_done {σ : Type} (f : σ → Payload → σ × Option GoErr)
    (sh : σ × RespHandler) (p : Payload) (h : sh.2.done = true) :
    RespHandler.handleMsg f sh p = sh := by
  simp [RespHandler.handleMsg, h]

theorem handleAll_of_done {σ : Type} (f : σ → Payload → σ × Option GoErr)
    (sh : σ × RespHandler) (ps : List Payload) (h : sh.2.done = true) :
    handleAll f sh ps = sh := by
  induction ps with
  | nil => rfl
  | cons p ps ih => rw [handleAll_cons, handleMsg_of_done f sh p h]; exact ih

theorem handleMsg_eq {σ : Type} (f : σ → Payload → σ × Option GoErr)
    (s : σ) (h : RespHandler) (p : Payload) :
    RespHandler.handleMsg f (s, h) p =
      if h.done then (s, h)
      else if (f s p).2 = some GoErr.errIgnore then ((f s p).1, h)
      else ((f s p).1, { done := true, err := (f s p).2 }) := by
  rcases hf : f s p with ⟨s', r⟩
  cases hd : h.done with
  | true => simp [RespHandler.handleMsg, hd]
  | false =>
      cases r with
      | none => simp [RespHandler.handleMsg, hd, hf]
      | some e =>
          by_cases he : e = GoErr.errIgnore <;>
            simp [RespHandler.handleMsg, hd, hf, he]

theorem handleAll_eq_oneShotLatchSpec {σ : Type}
    (f : σ → Payload → σ × Option GoErr) (s : σ) (ps : List Payload) :
    handleAll f (s, newResponseHandler) ps = oneShotLatchSpec f s ps := by
  induction ps generalizing s with
  | nil => rfl
  | cons p ps ih =>
      rcases hf : f s p with ⟨s', r⟩
      have hstep : RespHandler.handleMsg f (s, newResponseHandler) p =
          if r = some GoErr.errIgnore then (s', newResponseHandler)
          else (s', { done := true, err := r }) := by
        rw [handleMsg_eq]
        simp [newResponseHandler, hf]
      have hspec : oneShotLatchSpec f s (p :: ps) =
          if r = some GoErr.errIgnore then oneShotLatchSpec f s' ps
          else (s', { done := true, err := r }) := by
        simp [oneShotLatchSpec, hf]
      by_cases hr : r = some GoErr.errIgnore
      · rw [handleAll_cons, hstep, if_pos hr, hspec, if_pos hr]
        exact ih s'
      · rw [handleAll_cons, hstep, if_neg hr, hspec, if_neg hr]
        exact handleAll_of_done _ _ _ rfl

/-- Decision function used to exercise the latch on concrete inputs. -/
def tagDecide : Unit → Payload → Unit × Option GoErr :=
  fun u p =>
    (u, if p = "skip" then some GoErr.errIgnore
        else if p = "bad" then some (GoErr.other 1) else none)

/-- C1: the correlator is a one-shot latch.  A `Handle` call after the latch
has fired is a no-op; otherwise the decision function runs, a nil result
latches success, the ignore sentinel leaves the latch open for the next
frame, and any other error latches with that error.  Over a whole sequence
of `Handle` calls the handler equals the first-non-ignore-decision latch
(`oneShotLatchSpec`), so at most one non-ignore outcome is ever committed
and all frames delivered after commitment are dropped. -/
theorem responseHandler_one_shot_latch {σ : Type}
    (f : σ → Payload → σ × Option GoErr) (s t : σ) (h : RespHandler)
    (p : Payload) (ps : List Payload) :
    (h.done = true → RespHandler.handleMsg f (s, h) p = (s, h))
    ∧ (h.done = false →
        (f s p = (t, none) →
          RespHandler.handleMsg f (s, h) p = (t, { done := true, err := none }))
        ∧ (f s p = (t, some GoErr.errIgnore) →
          RespHandler.handleMsg f (s, h) p = (t, h))
        ∧ (∀ e, f s p = (t, some e) → e ≠ GoErr.errIgnore →
          RespHandler.handleMsg f (s, h) p
            = (t, { done := true, err := some e })))
    ∧ handleAll f (s, newResponseHandler) ps = oneShotLatchSpec f s ps := by
  refine ⟨fun hd => handleMsg_of_done f (s, h) p hd, fun hd => ⟨?_, ?_, ?_⟩,
    handleAll_eq_oneShotLatchSpec f s ps⟩
  · intro hf; rw [handleMsg_eq]; simp [hd, hf]
  · intro hf; rw [handleMsg_eq]; simp [hd, hf]
  · intro e hf he; rw [handleMsg_eq]; simp [hd, hf, he]

theorem responseHandler_one_shot_latch_witness :
    RespHandler.handleMsg tagDecide
        ((), { done := true, err := some (GoErr.other 1) }) "ok"
      = ((), { done := true, err := some (GoErr.other 1) })
    ∧ RespHandler.handleMsg tagDecide ((), newResponseHandler) "ok"
      = ((), { done := true, err := none })
    ∧ RespHandler.handleMsg tagDecide ((), newResponseHandler) "skip"
      = ((), newResponseHandler)
    ∧ RespHandler.handleMsg tagDecide ((), newResponseHandler) "bad"
      = ((), { done := true, err := some (GoErr.other 1) })
    ∧ handleAll tagDecide ((), newResponseHandler) ["skip", "ok", "bad"]
      = oneShotLatchSpec tagDecide () ["skip", "ok", "bad"] := by
  have h1 := responseHandler_one_shot_latch tagDecide () ()
    { done := true, err := some (GoErr.other 1) } "ok" []
  have h2 := responseHandler_one_shot_latch tagDecide () () newResponseHandler "ok" []
  have h3 := responseHandler_one_shot_latch tagDecide () () newResponseHandler "skip" []
  have h4 := responseHandler_one_shot_latch tagDecide () () newResponseHandler "bad"
    ["skip", "ok", "bad"]
  exact ⟨h1.1 rfl, (h2.2.1 rfl).1 (by decide), (h3.2.1 rfl).2.1 (by decide),
    (h4.2.1 rfl).2.2 (GoErr.other 1) (by decide) (by decide), h4.2.2⟩

/-- C2: once the receiver has terminated with terminal error `e` — in
particular after `Close()` has returned — every `RoundTrip` fails
immediately with that error, independently of the write outcome, the
delivered frames and the wait event (no frame is written, no handler is
registered), and leaves the transport state and the caller storage
untouched. -/
theorem roundTrip_after_close {σ : Type} (f : σ → Payload → σ × Option GoErr)
    (s : σ) (inp : RTInput) (t tz : TransportState) (e : GoErr) :
    (t.recvDone = true → t.recvErr = some e →
      roundTrip f s inp t = (some e, t, s))
    ∧ (tz.closed = false →
      roundTrip f s inp (closeTransport tz).2
        = (some GoErr.errClosed, (closeTransport tz).2, s)) := by
  constructor
  · intro hd he
    simp [roundTrip, roundTripAcquire, hd, he]
  · intro hc
    have h2 : (closeTransport tz).2.recvDone = true := by
      simp [closeTransport, hc]
    have h3 : (closeTransport tz).2.recvErr = some GoErr.errClosed := by
      simp [closeTransport, hc]
    simp [roundTrip, roundTripAcquire, h2, h3]

theorem roundTrip_after_close_witness :
    roundTrip tagDecide () { writeErr := none, frames := [], ev := WaitEvent.handlerDone }
        (receiverFinish (some (GoErr.other 2)) TransportState.new)
      = (some (GoErr.other 2),
          receiverFinish (some (GoErr.other 2)) TransportState.new, ())
    ∧ roundTrip tagDecide () { writeErr := none, frames := [], ev := WaitEvent.handlerDone }
        (closeTransport TransportState.new).2
      = (some GoErr.errClosed, (closeTransport TransportState.new).2, ()) := by
  have h := roundTrip_after_close tagDecide ()
    { writeErr := none, frames := [], ev := WaitEvent.handlerDone }
    (receiverFinish (some (GoErr.other 2)) TransportState.new)
    TransportState.new (GoErr.other 2)
  exact ⟨h.1 (by decide) (by decide), h.2 (by decide)⟩

/-- C3: a `RoundTrip` started while another is outstanding (the handler slot
is occupied and the receiver is still running) fails immediately with
`ErrBusy`, is not queued (the write outcome, frames and wait event are never
consulted), and leaves the transport state — including the first call's
registered handler slot — and the caller storage unchanged, so the first
call's blocking phase computes the same outcome as if the second call had
never happened. -/
theorem roundTrip_busy {σ σ' : Type} (f : σ → Payload → σ × Option GoErr)
    (g : σ' → Payload → σ' × Option GoErr) (s : σ) (s₁ : σ')
    (inp inp' : RTInput) (t : TransportState)
    (hd : t.recvDone = false) (hb : t.handlerSet = true) :
    roundTrip f s inp t = (some GoErr.errBusy, t, s)
    ∧ rtWait g s₁ inp' (roundTrip f s inp t).2.1 = rtWait g s₁ inp' t := by
  have h : roundTrip f s inp t = (some GoErr.errBusy, t, s) := by
    simp [roundTrip, roundTripAcquire, hd, hb]
  exact ⟨h, by rw [h]⟩

/-- A transport with one round trip outstanding. -/
def busyTransport : TransportState :=
  { closed := false, recvDone := false, recvErr := none, handlerSet := true }

theorem roundTrip_busy_witness :
    roundTrip tagDecide () { writeErr := none, frames := [], ev := WaitEvent.handlerDone }
        busyTransport
      = (some GoErr.errBusy, busyTransport, ()) :=
  (roundTrip_busy tagDecide tagDecide () ()
    { writeErr := none, frames := [], ev := WaitEvent.handlerDone }
    { writeErr := none, frames := [], ev := WaitEvent.handlerDone }
    busyTransport rfl rfl).1

/-- C7: on every return path of `roundTrip` the handler slot ends cleared
(the correlator is unregistered before the call returns); and when the wait
ends through context cancellation the call returns the context's error while
leaving the transport state entirely unchanged — the connection is not
closed and a fresh acquire succeeds, so it remains usable. -/
theorem roundTrip_unregisters {σ : Type} (f : σ → Payload → σ × Option GoErr)
    (s : σ) (inp : RTInput) (frames : List Payload) (t : TransportState)
    (e : GoErr) :
    (t.handlerSet = false → (roundTrip f s inp t).2.1.handlerSet = false)
    ∧ (t.recvDone = false → t.handlerSet = false →
        roundTrip f s { writeErr := none, frames := frames,
                        ev := WaitEvent.ctxDone e } t
          = (some e, t, (handleAll f (s, newResponseHandler) frames).1)
        ∧ (roundTripAcquire t).1 = none) := by
  rcases t with ⟨tc, trd, tre, ths⟩
  constructor
  · intro hh
    simp only [TransportState.handlerSet] at hh
    subst hh
    cases trd with
    | true =>
        cases tre with
        | some e0 => simp [roundTrip, roundTripAcquire]
        | none =>
            cases hw : inp.writeErr with
            | some ew => simp [roundTrip, roundTripAcquire, hw]
            | none =>
                cases hev : inp.ev <;>
                  simp [roundTrip, roundTripAcquire, rtWait, hw, hev]
    | false =>
        cases hw : inp.writeErr with
        | some ew => simp [roundTrip, roundTripAcquire, hw]
        | none =>
            cases hev : inp.ev <;>
              simp [roundTrip, roundTripAcquire, rtWait, hw, hev]
  · intro hrd hh
    simp only [TransportState.recvDone] at hrd
    simp only [TransportState.handlerSet] at hh
    subst hrd; subst hh
    constructor
    · simp [roundTrip, roundTripAcquire, rtWait]
    · simp [roundTripAcquire]

theorem roundTrip_unregisters_witness :
    (roundTrip tagDecide ()
        { writeErr := none, frames := ["skip"], ev := WaitEvent.handlerDone }
        TransportState.new).2.1.handlerSet = false
    ∧ roundTrip tagDecide ()
        { writeErr := none, frames := ["skip"], ev := WaitEvent.ctxDone (GoErr.other 4) }
        TransportState.new
      = (some (GoErr.other 4), TransportState.new, ())
    ∧ (roundTripAcquire TransportState.new).1 = none := by
  have h := roundTrip_unregisters tagDecide ()
    { writeErr := none, frames := ["skip"], ev := WaitEvent.handlerDone }
    ["skip"] TransportState.new (GoErr.other 4)
  exact ⟨h.1 rfl, (h.2 rfl rfl).1, (h.2 rfl rfl).2⟩

theorem handleAll_append {σ : Type} (f : σ → Payload → σ × Option GoErr)
    (sh : σ × RespHandler) (l1 l2 : List Payload) :
    handleAll f sh (l1 ++ l2) = handleAll f (handleAll f sh l1) l2 := by
  simp [handleAll, List.foldl_append]

/-- A decision function that, like the client's `responseUnmarshal`
callbacks, delivers the accepted payload into the caller's storage as its
side effect: `d` is the pure accept/ignore/error decision. -/
def storeAccepted (d : Payload → Option GoErr) :
    Option Payload → Payload → Option Payload × Option GoErr :=
  fun s p =>
    match d p with
    | none => (some p, none)
    | some e => (s, some e)

theorem handleAll_storeAccepted_ignored (d : Payload → Option GoErr)
    (frames : List Payload) (s : Option Payload)
    (hi : ∀ q ∈ frames, d q = some GoErr.errIgnore) :
    handleAll (storeAccepted d) (s, newResponseHandler) frames
      = (s, newResponseHandler) := by
  induction frames with
  | nil => rfl
  | cons q qs ih =>
      have hq := hi q (by simp)
      rw [handleAll_cons, handleMsg_eq]
      have h1 : storeAccepted d s q = (s, some GoErr.errIgnore) := by
        simp [storeAccepted, hq]
      simp only [newResponseHandler, h1]
      exact ih (fun q' hq' => hi q' (by simp [hq']))

/-- C4: if the decision function ignores the first `N` delivered frames and
accepts frame `N+1`, the round trip returns nil and the payload delivered
into the caller's storage is exactly frame `N+1`, regardless of any frames
delivered after the latch fired. -/
theorem roundTrip_accepts_after_ignored
    (d : Payload → Option GoErr) (igns rest : List Payload) (p : Payload)
    (t : TransportState)
    (hrd : t.recvDone = false) (hh : t.handlerSet = false)
    (hi : ∀ q ∈ igns, d q = some GoErr.errIgnore) (hp : d p = none) :
    roundTrip (storeAccepted d) none
        { writeErr := none, frames := igns ++ p :: rest,
          ev := WaitEvent.handlerDone } t
      = (none, t, some p) := by
  have hfold : handleAll (storeAccepted d) (none, newResponseHandler)
      (igns ++ p :: rest) = (some p, { done := true, err := none }) := by
    rw [handleAll_append, handleAll_storeAccepted_ignored d igns none hi,
      handleAll_cons, handleMsg_eq]
    have h1 : storeAccepted d none p = (some p, none) := by
      simp [storeAccepted, hp]
    simp only [newResponseHandler, h1]
    simp only [Bool.false_eq_true, if_false, Option.some.injEq, reduceCtorEq,
      ite_false]
    exact handleAll_of_done _ _ _ rfl
  rcases t with ⟨tc, trd, tre, ths⟩
  simp only [TransportState.recvDone] at hrd
  simp only [TransportState.handlerSet] at hh
  subst hrd; subst hh
  simp [roundTrip, roundTripAcquire, rtWait, hfold]

/-- The accept/ignore decision of the spec's three-frame scenario. -/
def respDecide : Payload → Option GoErr :=
  fun p =>
    if p = "ignore" then some GoErr.errIgnore
    else if p = "response" then none
    else some (GoErr.other 9)

theorem roundTrip_accepts_after_ignored_witness :
    roundTrip (storeAccepted respDecide) none
        { writeErr := none, frames := ["ignore", "ignore", "response"],
          ev := WaitEvent.handlerDone } TransportState.new
      = (none, TransportState.new, some "response") := by
  have h := roundTrip_accepts_after_ignored respDecide ["ignore", "ignore"]
    [] "response" TransportState.new rfl rfl (by decide) (by decide)
  exact h

/-- C5: `responseUnmarshal` is the three-way case analysis.  A decode
failure is returned verbatim — fatal, never turned into the ignore
sentinel — with the output untouched; a decoded root tag equal to the
expected kind under (ASCII) case-insensitive comparison commits the decoded
tree into the output and returns nil; any other root leaves the output
untouched and returns the ignore sentinel. -/
theorem responseUnmarshal_cases {α : Type}
    (decode : Payload → Except GoErr (Decoded α)) (data : Payload) (v : α)
    (want : String) (e : GoErr) (doc : Decoded α)
    (hw : want = "navigation" ∨ want = "content") :
    (decode data = Except.error e →
      responseUnmarshal decode data v want = (v, some e)
      ∧ (e ≠ GoErr.errIgnore →
          (responseUnmarshal decode data v want).2 ≠ some GoErr.errIgnore))
    ∧ (decode data = Except.ok doc →
        (toLowerStr doc.rootLocal = toLowerStr want →
          responseUnmarshal decode data v want = (doc.value, none))
        ∧ (toLowerStr doc.rootLocal ≠ toLowerStr want →
          responseUnmarshal decode data v want = (v, some GoErr.errIgnore))) := by
  have hwl : toLowerStr want = want := by
    rcases hw with rfl | rfl <;> rfl
  constructor
  · intro hd
    refine ⟨by simp [responseUnmarshal, hd], fun hne => ?_⟩
    simp only [responseUnmarshal, hd]
    exact fun hcontra => hne (by injection hcontra)
  · intro hd
    constructor
    · intro hm; rw [hwl] at hm; simp [responseUnmarshal, hd, hm]
    · intro hm; rw [hwl] at hm; simp [responseUnmarshal, hd, hm]

/-- A concrete decoder covering all three `responseUnmarshal` outcomes. -/
def decodeProbe : Payload → Except GoErr (Decoded Nat) :=
  fun p =>
    if p = "malformed" then Except.error (GoErr.other 5)
    else if p = "nav" then Except.ok { rootLocal := "Navigation", value := 1 }
    else Except.ok { rootLocal := "pong", value := 2 }

theorem responseUnmarshal_cases_witness :
    responseUnmarshal decodeProbe "malformed" 0 "navigation"
      = (0, some (GoErr.other 5))
    ∧ (responseUnmarshal decodeProbe "malformed" 0 "navigation").2
      ≠ some GoErr.errIgnore
    ∧ responseUnmarshal decodeProbe "nav" 0 "navigation" = (1, none)
    ∧ responseUnmarshal decodeProbe "pong" 0 "navigation"
      = (0, some GoErr.errIgnore) := by
  have h1 := responseUnmarshal_cases decodeProbe "malformed" 0 "navigation"
    (GoErr.other 5) { rootLocal := "Navigation", value := 1 } (Or.inl rfl)
  have h2 := responseUnmarshal_cases decodeProbe "nav" 0 "navigation"
    (GoErr.other 5) { rootLocal := "Navigation", value := 1 } (Or.inl rfl)
  have h3 := responseUnmarshal_cases decodeProbe "pong" 0 "navigation"
    (GoErr.other 5) { rootLocal := "pong", value := 2 } (Or.inl rfl)
  have d1 : decodeProbe "malformed" = Except.error (GoErr.other 5) := by
    simp [decodeProbe]
  have d2 : decodeProbe "nav"
      = Except.ok { rootLocal := "Navigation", value := 1 } := by
    simp [decodeProbe]
  have d3 : decodeProbe "pong" = Except.ok { rootLocal := "pong", value := 2 } := by
    simp [decodeProbe]
  exact ⟨(h1.1 d1).1, (h1.1 d1).2 (by decide),
    (h2.2 d2).1 (by decide), (h3.2 d3).2 (by decide)⟩

theorem navItem_name_mk (i n : String) (its : List NavItem) :
    (NavItem.mk i n its).name = n := rfl

theorem contentItem_name_mk (i n : String) (mn mx st un dv rw vl : Option String)
    (cs hs : List String) (os : List ContentItemOption) (its : List ContentItem) :
    (ContentItem.mk i n mn mx st un dv rw vl cs hs os its).name = n := rfl

theorem findNavItemByName_eq_preorder (name : String) (items : List NavItem) :
    findNavItemByName name items
      = (navPreorder items).find? (fun i => i.name == name) := by
  induction items using findNavItemByName.induct name with
  | case1 => simp [findNavItemByName, navPreorder]
  | case2 i its rest =>
      simp [findNavItemByName, navPreorder, List.find?_cons, navItem_name_mk]
  | case3 i n its rest hn found hf ih =>
      simp only [findNavItemByName, navPreorder, hn, if_false, hf,
        List.find?_cons, List.find?_append, navItem_name_mk,
        beq_iff_eq, ite_false]
      rw [← ih, hf]
      have hb : (n == name) = false := by simp [hn]
      simp [hb]
  | case4 i n its rest hn hf ih1 ih2 =>
      simp only [findNavItemByName, navPreorder, hn, if_false, hf,
        List.find?_cons, List.find?_append, navItem_name_mk,
        beq_iff_eq, ite_false]
      rw [← ih1, ← ih2, hf]
      have hb : (n == name) = false := by simp [hn]
      simp [hb]

theorem findContentItemByName_eq_preorder (name : String)
    (items : List ContentItem) :
    findContentItemByName name items
      = (contentPreorder items).find? (fun i => i.name == name) := by
  induction items using findContentItemByName.induct name with
  | case1 => simp [findContentItemByName, contentPreorder]
  | case2 i mn mx st un dv rw vl cs hs os its rest =>
      simp [findContentItemByName, contentPreorder, List.find?_cons,
        contentItem_name_mk]
  | case3 i n mn mx st un dv rw vl cs hs os its rest hn found hf ih =>
      simp only [findContentItemByName, contentPreorder, hn, if_false, hf,
        List.find?_cons, List.find?_append, contentItem_name_mk,
        beq_iff_eq, ite_false]
      rw [← ih, hf]
      have hb : (n == name) = false := by simp [hn]
      simp [hb]
  | case4 i n mn mx st un dv rw vl cs hs os its rest hn hf ih1 ih2 =>
      simp only [findContentItemByName, contentPreorder, hn, if_false, hf,
        List.find?_cons, List.find?_append, contentItem_name_mk,
        beq_iff_eq, ite_false]
      rw [← ih1, ← ih2, hf]
      have hb : (n == name) = false := by simp [hn]
      simp [hb]

/-- C8: on both tree shapes, `FindByName` equals the first exact
(case-sensitive) name match in the depth-first pre-order listing — each
parent before its children, children in original order — and is a total
function into an optional node (`none` = not found, never an error). -/
theorem FindByName_depth_first_preorder (name : String) (items : List NavItem)
    (citems : List ContentItem) (r : NavRoot) (cr : ContentRoot) :
    findNavItemByName name items
      = (navPreorder items).find? (fun i => i.name == name)
    ∧ findContentItemByName name citems
      = (contentPreorder citems).find? (fun i => i.name == name)
    ∧ r.FindByName name = (navPreorder r.items).find? (fun i => i.name == name)
    ∧ cr.FindByName name
      = (contentPreorder cr.items).find? (fun i => i.name == name) :=
  ⟨findNavItemByName_eq_preorder name items,
    findContentItemByName_eq_preorder name citems,
    findNavItemByName_eq_preorder name r.items,
    findContentItemByName_eq_preorder name cr.items⟩

theorem decodeContentItem_fields (e : XElem) :
    (decodeContentItem e).min = optStringField "min" e
    ∧ (decodeContentItem e).max = optStringField "max" e
    ∧ (decodeContentItem e).step = optStringField "step" e
    ∧ (decodeContentItem e).unit = optStringField "unit" e
    ∧ (decodeContentItem e).div = optStringField "div" e
    ∧ (decodeContentItem e).raw = optStringField "raw" e
    ∧ (decodeContentItem e).value = optStringField "value" e := by
  cases e with
  | mk n a t cs =>
      refine ⟨?_, ?_, ?_, ?_, ?_, ?_, ?_⟩ <;>
        simp [decodeContentItem, ContentItem.min, ContentItem.max,
          ContentItem.step, ContentItem.unit, ContentItem.div,
          ContentItem.raw, ContentItem.value]

theorem optStringField_absent_or_text (tag : String) (e : XElem) :
    (childNamed tag e = none → optStringField tag e = none)
    ∧ (∀ c, childNamed tag e = some c → optStringField tag e = some c.text) :=
  ⟨fun h => by simp [optStringField, h], fun c h => by simp [optStringField, h]⟩

/-- C9: each optional scalar field of a decoded content item distinguishes
"absent" from "present but empty": a field whose element is missing decodes
to `none`, a field whose element is present decodes to `some` of its
character data — in particular an empty `<value>` element yields
`some ""`, which differs from the absent state `none`. -/
theorem contentItem_optional_fields (e : XElem) :
    (childNamed "min" e = none → (decodeContentItem e).min = none)
    ∧ (∀ c, childNamed "min" e = some c → (decodeContentItem e).min = some c.text)
    ∧ (childNamed "max" e = none → (decodeContentItem e).max = none)
    ∧ (∀ c, childNamed "max" e = some c → (decodeContentItem e).max = some c.text)
    ∧ (childNamed "step" e = none → (decodeContentItem e).step = none)
    ∧ (∀ c, childNamed "step" e = some c → (decodeContentItem e).step = some c.text)
    ∧ (childNamed "unit" e = none → (decodeContentItem e).unit = none)
    ∧ (∀ c, childNamed "unit" e = some c → (decodeContentItem e).unit = some c.text)
    ∧ (childNamed "div" e = none → (decodeContentItem e).div = none)
    ∧ (∀ c, childNamed "div" e = some c → (decodeContentItem e).div = some c.text)
    ∧ (childNamed "raw" e = none → (decodeContentItem e).raw = none)
    ∧ (∀ c, childNamed "raw" e = some c → (decodeContentItem e).raw = some c.text)
    ∧ (childNamed "value" e = none → (decodeContentItem e).value = none)
    ∧ (∀ c, childNamed "value" e = some c →
        (decodeContentItem e).value = some c.text)
    ∧ (∀ c, childNamed "value" e = some c → c.text = "" →
        (decodeContentItem e).value = some "" ∧ (decodeContentItem e).value ≠ none) := by
  have hf := decodeContentItem_fields e
  refine ⟨?_, ?_, ?_, ?_, ?_, ?_, ?_, ?_, ?_, ?_, ?_, ?_, ?_, ?_, ?_⟩
  · intro h; rw [hf.1]; exact (optStringField_absent_or_text "min" e).1 h
  · intro c h; rw [hf.1]; exact (optStringField_absent_or_text "min" e).2 c h
  · intro h; rw [hf.2.1]; exact (optStringField_absent_or_text "max" e).1 h
  · intro c h; rw [hf.2.1]; exact (optStringField_absent_or_text "max" e).2 c h
  · intro h; rw [hf.2.2.1]; exact (optStringField_absent_or_text "step" e).1 h
  · intro c h; rw [hf.2.2.1]; exact (optStringField_absent_or_text "step" e).2 c h
  · intro h; rw [hf.2.2.2.1]; exact (optStringField_absent_or_text "unit" e).1 h
  · intro c h; rw [hf.2.2.2.1]
    exact (optStringField_absent_or_text "unit" e).2 c h
  · intro h; rw [hf.2.2.2.2.1]
    exact (optStringField_absent_or_text "div" e).1 h
  · intro c h; rw [hf.2.2.2.2.1]
    exact (optStringField_absent_or_text "div" e).2 c h
  · intro h; rw [hf.2.2.2.2.2.1]
    exact (optStringField_absent_or_text "raw" e).1 h
  · intro c h; rw [hf.2.2.2.2.2.1]
    exact (optStringField_absent_or_text "raw" e).2 c h
  · intro h; rw [hf.2.2.2.2.2.2]
    exact (optStringField_absent_or_text "value" e).1 h
  · intro c h; rw [hf.2.2.2.2.2.2]
    exact (optStringField_absent_or_text "value" e).2 c h
  · intro c h ht
    have hv : (decodeContentItem e).value = some c.text := by
      rw [hf.2.2.2.2.2.2]
      exact (optStringField_absent_or_text "value" e).2 c h
    rw [hv, ht]
    exact ⟨rfl, by simp⟩

/-- A content item element carrying no `<value>` child. -/
def itemNoValue : XElem :=
  XElem.mk "item" [("id", "0x2")] "" [XElem.mk "name" [] "Temperaturen" []]

/-- A content item element carrying an empty `<value>` child. -/
def itemEmptyValue : XElem :=
  XElem.mk "item" [("id", "0x3")] ""
    [XElem.mk "name" [] "Einstellungen" [], XElem.mk "value" [] "" []]

theorem contentItem_optional_fields_witness :
    (decodeContentItem itemNoValue).value = none
    ∧ (decodeContentItem itemEmptyValue).value = some ""
    ∧ (decodeContentItem itemEmptyValue).value ≠ none
    ∧ (decodeContentItem itemNoValue).min = none := by
  have h1 := contentItem_optional_fields itemNoValue
  have h2 := contentItem_optional_fields itemEmptyValue
  have hv : childNamed "value" itemEmptyValue
      = some (XElem.mk "value" [] "" []) := rfl
  have he := h2.2.2.2.2.2.2.2.2.2.2.2.2.2.2 (XElem.mk "value" [] "" []) hv rfl
  exact ⟨h1.2.2.2.2.2.2.2.2.2.2.2.2.1 rfl, he.1, he.2, h1.1 rfl⟩

/-- A transport whose receiver terminated with a peer/network error before
`Close` was called. -/
def peerFailedTransport : TransportState :=
  { closed := false, recvDone := true, recvErr := some (GoErr.other 7),
    handlerSet := false }

/-- C6 counterexample: on a connection whose terminal error was already set
to a peer failure, a successful `Close` still overwrites it with the closed
error — the pre-existing terminal error is not preserved. -/
theorem close_overwrites_peer_error :
    peerFailedTransport.recvErr = some (GoErr.other 7)
    ∧ GoErr.other 7 ≠ GoErr.errClosed
    ∧ (closeTransport peerFailedTransport).1 = none
    ∧ (closeTransport peerFailedTransport).2.recvErr
      = some GoErr.errClosed := by decide

/-- C6 (amended): when the underlying close succeeds, `Close` waits for the
receiver to terminate and then sets the terminal error unconditionally to
the dedicated closed error, overwriting any terminal error already recorded
by a read failure; a second `Close` returns the already-closed error and
changes nothing. -/
theorem closeTransport_sets_closed_error (t : TransportState) (e : GoErr) :
    (t.closed = false →
      closeTransport t
        = (none, { t with closed := true, recvDone := true,
                          recvErr := some GoErr.errClosed }))
    ∧ (t.closed = false → t.recvErr = some e →
        (closeTransport t).2.recvErr = some GoErr.errClosed)
    ∧ (t.closed = true → closeTransport t = (some GoErr.errClosed, t)) :=
  ⟨fun hc => by simp [closeTransport, hc],
    fun hc _ => by simp [closeTransport, hc],
    fun hc => by simp [closeTransport, hc]⟩

theorem closeTransport_sets_closed_error_witness :
    closeTransport peerFailedTransport
      = (none, { closed := true, recvDone := true,
                 recvErr := some GoErr.errClosed, handlerSet := false })
    ∧ (closeTransport peerFailedTransport).2.recvErr = some GoErr.errClosed
    ∧ closeTransport (closeTransport peerFailedTransport).2
      = (some GoErr.errClosed, (closeTransport peerFailedTransport).2) := by
  have h1 := closeTransport_sets_closed_error peerFailedTransport (GoErr.other 7)
  have h2 := closeTransport_sets_closed_error
    (closeTransport peerFailedTransport).2 (GoErr.other 7)
  exact ⟨h1.1 rfl, h1.2.1 rfl rfl, h2.2.2 (by decide)⟩

theorem handleMsg_fst {σ : Type} (f : σ → Payload → σ × Option GoErr)
    (s : σ) (h : RespHandler) (q : Payload) :
    (RespHandler.handleMsg f (s, h) q).1 = if h.done then s else (f s q).1 := by
  rw [handleMsg_eq]
  by_cases hd : h.done = true
  · simp [hd]
  · simp only [Bool.not_eq_true] at hd
    simp only [hd, Bool.false_eq_true, if_false]
    split <;> rfl

theorem handleMsg_responseUnmarshal_cases {α : Type}
    (decode : Payload → Except GoErr (Decoded α)) (want : String)
    (s : α) (h : RespHandler) (q : Payload) :
    (RespHandler.handleMsg (fun s p => responseUnmarshal decode p s want)
        (s, h) q).1 = s
    ∨ ∃ doc, decode q = Except.ok doc ∧ toLowerStr doc.rootLocal = want
        ∧ (RespHandler.handleMsg (fun s p => responseUnmarshal decode p s want)
            (s, h) q).1 = doc.value := by
  rw [handleMsg_fst]
  by_cases hd : h.done = true
  · left; simp [hd]
  · simp only [Bool.not_eq_true] at hd
    simp only [hd, Bool.false_eq_true, if_false]
    cases hdq : decode q with
    | error e => left; simp [responseUnmarshal, hdq]
    | ok doc =>
        by_cases hm : toLowerStr doc.rootLocal = want
        · right; exact ⟨doc, rfl, hm, by simp [responseUnmarshal, hdq, hm]⟩
        · left; simp [responseUnmarshal, hdq, hm]

theorem handleAll_responseUnmarshal_cases {α : Type}
    (decode : Payload → Except GoErr (Decoded α)) (want : String)
    (frames : List Payload) (s : α) (h : RespHandler) :
    (handleAll (fun s p => responseUnmarshal decode p s want) (s, h) frames).1 = s
    ∨ ∃ p ∈ frames, ∃ doc, decode p = Except.ok doc
        ∧ toLowerStr doc.rootLocal = want
        ∧ (handleAll (fun s p => responseUnmarshal decode p s want)
            (s, h) frames).1 = doc.value := by
  induction frames generalizing s h with
  | nil => exact Or.inl rfl
  | cons q qs ih =>
      have hstep := handleMsg_responseUnmarshal_cases decode want s h q
      rcases hmq : RespHandler.handleMsg
          (fun s p => responseUnmarshal decode p s want) (s, h) q with ⟨s₁, h₁⟩
      rw [hmq] at hstep
      rw [handleAll_cons, hmq]
      rcases ih s₁ h₁ with h1 | ⟨p, hp, doc, hd1, hd2, hd3⟩
      · rcases hstep with h2 | ⟨doc, hd1, hd2, hd3⟩
        · left; rw [h1]; exact h2
        · right; exact ⟨q, by simp, doc, hd1, hd2, by rw [h1]; exact hd3⟩
      · right; exact ⟨p, List.mem_cons_of_mem q hp, doc, hd1, hd2, hd3⟩

theorem roundTrip_storage_cases {σ : Type}
    (f : σ → Payload → σ × Option GoErr) (s : σ) (inp : RTInput)
    (t : TransportState) :
    (roundTrip f s inp t).2.2 = s
    ∨ (roundTrip f s inp t).2.2
      = (handleAll f (s, newResponseHandler) inp.frames).1 := by
  unfold roundTrip
  rcases ha : roundTripAcquire t with ⟨e0, t1⟩
  cases e0 with
  | some e => left; rfl
  | none =>
      cases hw : inp.writeErr with
      | some ew => left; simp
      | none => right; cases hev : inp.ev <;> simp [rtWait, hev]

/-- C10 (amended): `Login` and `Get` always return a tree value (the `&result`
pointer is non-nil by construction); that tree is either the zero value of
its type or the complete decoded tree of some delivered frame whose root tag
matched the expected kind — never partially decoded data.  (When an error is
returned the tree is the zero value unless an accepted frame had already
been committed before the failing select branch fired, e.g. under context
cancellation or receiver death racing a just-accepted frame.) -/
theorem client_tree_zero_or_committed
    (dn : Payload → Except GoErr (Decoded NavRoot))
    (dc : Payload → Except GoErr (Decoded ContentRoot))
    (inp inp' : RTInput) (t t' : TransportState) :
    ((clientLogin dn inp t).1 = NavRoot.zero
      ∨ ∃ p ∈ inp.frames, ∃ doc, dn p = Except.ok doc
          ∧ toLowerStr doc.rootLocal = "navigation"
          ∧ (clientLogin dn inp t).1 = doc.value)
    ∧ ((clientGet dc inp' t').1 = ContentRoot.zero
      ∨ ∃ p ∈ inp'.frames, ∃ doc, dc p = Except.ok doc
          ∧ toLowerStr doc.rootLocal = "content"
          ∧ (clientGet dc inp' t').1 = doc.value) := by
  constructor
  · have h1 := roundTrip_storage_cases
      (fun s p => responseUnmarshal dn p s "navigation") NavRoot.zero inp t
    have h2 := handleAll_responseUnmarshal_cases dn "navigation" inp.frames
      NavRoot.zero newResponseHandler
    rcases h1 with h1 | h1
    · left; exact h1
    · rcases h2 with h2 | ⟨p, hp, doc, hd1, hd2, hd3⟩
      · left; rw [show (clientLogin dn inp t).1
          = (roundTrip (fun s p => responseUnmarshal dn p s "navigation")
              NavRoot.zero inp t).2.2 from rfl, h1]; exact h2
      · right
        exact ⟨p, hp, doc, hd1, hd2, by
          rw [show (clientLogin dn inp t).1
            = (roundTrip (fun s p => responseUnmarshal dn p s "navigation")
                NavRoot.zero inp t).2.2 from rfl, h1]; exact hd3⟩
  · have h1 := roundTrip_storage_cases
      (fun s p => responseUnmarshal dc p s "content") ContentRoot.zero inp' t'
    have h2 := handleAll_responseUnmarshal_cases dc "content" inp'.frames
      ContentRoot.zero newResponseHandler
    rcases h1 with h1 | h1
    · left; exact h1
    · rcases h2 with h2 | ⟨p, hp, doc, hd1, hd2, hd3⟩
      · left; rw [show (clientGet dc inp' t').1
          = (roundTrip (fun s p => responseUnmarshal dc p s "content")
              ContentRoot.zero inp' t').2.2 from rfl, h1]; exact h2
      · right
        exact ⟨p, hp, doc, hd1, hd2, by
          rw [show (clientGet dc inp' t').1
            = (roundTrip (fun s p => responseUnmarshal dc p s "content")
                ContentRoot.zero inp' t').2.2 from rfl, h1]; exact hd3⟩

/-- A decoded navigation document with one entry. -/
def navDocSample : NavRoot :=
  { xmlName := { space := "", localPart := "Navigation" }, id := "",
    items := [NavItem.mk "0x1" "Information" []] }

/-- A decoder that always yields `navDocSample` under a matching root. -/
def decodeNavConst : Payload → Except GoErr (Decoded NavRoot) :=
  fun _ => Except.ok { rootLocal := "Navigation", value := navDocSample }

/-- C10 counterexample: a frame is accepted and committed into the caller's
storage, but the context-cancellation branch of the select fires, so `Login`
returns a non-nil error together with a tree that is not the zero value. -/
theorem clientLogin_error_with_committed_tree :
    (clientLogin decodeNavConst
        { writeErr := none, frames := ["f"],
          ev := WaitEvent.ctxDone (GoErr.other 3) } TransportState.new).2.1
      = some (GoErr.other 3)
    ∧ (clientLogin decodeNavConst
        { writeErr := none, frames := ["f"],
          ev := WaitEvent.ctxDone (GoErr.other 3) } TransportState.new).1
      ≠ NavRoot.zero := by
  have h1 : (clientLogin decodeNavConst
      { writeErr := none, frames := ["f"],
        ev := WaitEvent.ctxDone (GoErr.other 3) } TransportState.new).1
      = navDocSample := rfl
  refine ⟨rfl, ?_⟩
  rw [h1]
  intro hc
  have hitems := congrArg NavRoot.items hc
  simp [navDocSample, NavRoot.zero] at hitems
